import Mathlib

/-!
Shallow embedding of `smallapp/unbound-control.c`, the remote-control client
of the unbound server.  Each C function of the secure control-channel core is
translated into a Lean function.  Interactions with the operating system and
the SSL library are represented by explicit oracle records: a field of an
oracle records the outcome the library call would report (success, failure,
would-block, bytes delivered).  Every embedded function additionally returns
the list of observable events it performs, so that ordering properties
(which stage runs first, whether a connection is attempted) can be stated.

Fatal exits (`fatal_exit`, `ssl_err`, `exit(1)`) are represented by an
`Except` error value tagged with the failing stage, following the error
taxonomy of the specification (CredentialError, AddressError, ConnectError,
HandshakeError, TransportError).
-/

/-- A byte, as delivered by `SSL_read` / consumed by `SSL_write`. -/
abbrev Byte := Nat

/-- A byte string. -/
abbrev Bytes := List Nat

/-- Error kinds of the specification; `fatalOther` covers the remaining
fatal exits of the code (out of memory, allocation failure, socket failure)
that the specification does not give a dedicated kind. -/
inductive CtrlError where
  | credentialError : String → CtrlError
  | addressError : String → CtrlError
  | connectError : String → CtrlError
  | handshakeError : String → CtrlError
  | transportError : String → CtrlError
  | fatalOther : String → CtrlError
deriving DecidableEq

/-- Observable events of one invocation, in the order the code performs
them. -/
inductive Event where
  | readConfig
  | warnDisabled
  | buildCtx
  | resolveAddr : List Char → Event
  | sockCreate
  | sockConnect : List Char → Nat → Event
  | handshakeStep
  | sslWrite : Bytes → Event
  | sslRead
  | display : Bytes → Event
  | teardown
deriving DecidableEq

/-- The configuration bundle handed to the core by the excluded
config/CLI collaborator (fields of `struct config_file` the code reads). -/
structure ConfigFile where
  server_cert_file : String
  control_key_file : String
  control_cert_file : String
  control_port : Nat
  control_ifs : List (List Char)
  remote_control_enable : Bool
deriving DecidableEq

/-- A resolved endpoint: address text and port, as produced by the address
parsing functions. -/
structure Endpoint where
  addr : List Char
  port : Nat
deriving DecidableEq

/-- Decimal digit string to a natural number (the numeric port value). -/
def digitsToNat (l : List Char) : Nat :=
  l.foldl (fun n c => 10 * n + (c.toNat - 48)) 0

/-- A wellformed port string: nonempty and all decimal digits. -/
def isPortStr (l : List Char) : Bool :=
  !l.isEmpty && l.all Char.isDigit

/-- Split a character list on every occurrence of a separator. -/
def splitOnChar (sep : Char) : List Char → List (List Char)
  | [] => [[]]
  | c :: rest =>
    match splitOnChar sep rest with
    | [] => [[c]]
    | h :: t => if c = sep then [] :: h :: t else (c :: h) :: t

/-- A wellformed IPv4 octet: one to three decimal digits, value at most
255. -/
def isOctet (l : List Char) : Bool :=
  !l.isEmpty && l.length ≤ 3 && l.all Char.isDigit && digitsToNat l ≤ 255

/-- Modelled from the spec: `ipstrtoaddr` lives in `util/net_help.c`, which
is not part of the sources; per the spec only literal IP address forms are
guaranteed, modelled here as IPv4 dotted quads. -/
def isValidAddr (l : List Char) : Bool :=
  (splitOnChar '.' l).length = 4 && (splitOnChar '.' l).all isOctet

/-- Split an address string at the first port marker character,
yielding the part before and the part after, or nothing when no marker
occurs (`strchr(svr, (at))`). -/
def splitAtMarker : List Char → Option (List Char × List Char)
  | [] => none
  | c :: rest =>
    if c = '@' then some ([], rest)
    else
      match splitAtMarker rest with
      | none => none
      | some (a, b) => some (c :: a, b)

/-- Modelled from the spec: `extstrtoaddr` lives in `util/net_help.c`, which
is not part of the sources.  Per the spec's parsing rule, an input with an
explicit port marker is parsed as address and port together and is rejected
on malformed input (invalid address or non-numeric port). -/
def extstrtoaddr (l : List Char) : Option Endpoint :=
  match splitAtMarker l with
  | none => none
  | some (a, p) =>
    if isValidAddr a && isPortStr p then some ⟨a, digitsToNat p⟩ else none

/-- Modelled from the spec: a bare address is combined with the given
default port; an invalid address is rejected. -/
def ipstrtoaddr (l : List Char) (port : Nat) : Option Endpoint :=
  if isValidAddr l then some ⟨l, port⟩ else none

/-- The endpoint-resolution dispatch of `contact_server`: if the string
contains the explicit port marker use `extstrtoaddr`, else combine with the
configured default control port via `ipstrtoaddr`. -/
def resolveSvr (svr : List Char) (dport : Nat) : Option Endpoint :=
  match splitAtMarker svr with
  | some _ => extstrtoaddr svr
  | none => ipstrtoaddr svr dport

/-- Outcomes of the operating-system calls made by `contact_server`. -/
structure NetOracle where
  socket_ok : Bool
  connect_ok : Bool
deriving DecidableEq

/-- The server string actually used by `contact_server`: the explicit
override when present, else the first configured control interface, else
loopback. -/
def chooseSvr (svr? : Option (List Char)) (cfg : ConfigFile) : List Char :=
  match svr? with
  | some s => s
  | none =>
    match cfg.control_ifs with
    | i :: _ => i
    | [] => "127.0.0.1".data

/-- Embedding of `contact_server`: resolve the endpoint (fatal
`AddressError` on parse failure, before any network call), create the
socket, connect (failure exits the process). -/
def contact_server (svr? : Option (List Char)) (cfg : ConfigFile)
    (net : NetOracle) : List Event × Except CtrlError Endpoint :=
  let svr := chooseSvr svr? cfg
  match resolveSvr svr cfg.control_port with
  | none =>
    ([Event.resolveAddr svr],
      Except.error (CtrlError.addressError
        (match splitAtMarker svr with
         | some _ => "could not parse IP@port"
         | none => "could not parse IP")))
  | some ep =>
    if !net.socket_ok then
      ([Event.resolveAddr svr, Event.sockCreate],
        Except.error (CtrlError.fatalOther "socket"))
    else if !net.connect_ok then
      ([Event.resolveAddr svr, Event.sockCreate,
        Event.sockConnect ep.addr ep.port],
        Except.error (CtrlError.connectError "connect"))
    else
      ([Event.resolveAddr svr, Event.sockCreate,
        Event.sockConnect ep.addr ep.port], Except.ok ep)

/-- Outcomes of the SSL-library calls made by `setup_ctx`:
whether the chroot filename rewrites succeed, whether the context
allocates, whether the client certificate and private key files load, and
whether `SSL_CTX_check_private_key` reports that the private key matches
the client certificate, and whether the trusted server certificate loads
as verify location. -/
structure CtxOracle where
  fnames_ok : Bool
  ctx_new_ok : Bool
  use_cert_ok : Bool
  use_key_ok : Bool
  key_matches_cert : Bool
  load_verify_ok : Bool
deriving DecidableEq

/-- The trust-relevant state of the produced `SSL_CTX`: whether the legacy
SSLv2 protocol is disabled (`SSL_OP_NO_SSLv2`) and whether mandatory peer
verification is enabled (`SSL_VERIFY_PEER`). -/
structure SSL_CTX where
  no_sslv2 : Bool
  verify_peer : Bool
deriving DecidableEq

/-- Embedding of `setup_ctx`: build the SSL context from the three
credential paths of the configuration.  The SSLv2-disabling option and the
peer-verification requirement are set unconditionally; a key/certificate
failure (including a key that does not match the certificate) is a fatal
`CredentialError`. -/
def setup_ctx (cfg : ConfigFile) (o : CtxOracle) :
    List Event × Except CtrlError SSL_CTX :=
  ([Event.buildCtx],
    if !o.fnames_ok then
      Except.error (CtrlError.fatalOther "out of memory")
    else if !o.ctx_new_ok then
      Except.error (CtrlError.fatalOther "could not allocate SSL_CTX pointer")
    else if !(o.use_cert_ok && o.use_key_ok && o.key_matches_cert) then
      Except.error (CtrlError.credentialError
        "Error setting up SSL_CTX client key and cert")
    else if !o.load_verify_ok then
      Except.error (CtrlError.credentialError
        "Error setting up SSL_CTX verify, server cert")
    else
      Except.ok ⟨true, true⟩)

/-- Outcome of one `SSL_do_handshake` attempt, as classified by
`SSL_get_error`: success, would-block-on-read, would-block-on-write, or any
other error (carrying the error code). -/
inductive HsOutcome where
  | ok
  | wantRead
  | wantWrite
  | fail : Nat → HsOutcome
deriving DecidableEq

/-- A would-block outcome: `SSL_ERROR_WANT_READ` or `SSL_ERROR_WANT_WRITE`. -/
def wouldBlock : HsOutcome → Bool
  | HsOutcome.wantRead => true
  | HsOutcome.wantWrite => true
  | _ => false

/-- Embedding of the `while(1)` handshake loop of `setup_ssl`: the oracle
list gives the outcome of each successive handshake attempt; a would-block
outcome retries, success leaves the loop, any other failure is a fatal
`HandshakeError`.  `none` means the oracle list ran out, i.e. the loop is
still blocked retrying. -/
def handshakeLoop : List HsOutcome → Option (List Event × Except CtrlError Unit)
  | [] => none
  | HsOutcome.ok :: _ => some ([Event.handshakeStep], Except.ok ())
  | HsOutcome.fail _ :: _ =>
    some ([Event.handshakeStep],
      Except.error (CtrlError.handshakeError "SSL handshake failed"))
  | HsOutcome.wantRead :: rest =>
    (handshakeLoop rest).map (fun pr => (Event.handshakeStep :: pr.1, pr.2))
  | HsOutcome.wantWrite :: rest =>
    (handshakeLoop rest).map (fun pr => (Event.handshakeStep :: pr.1, pr.2))

/-- Outcomes of the SSL-library calls made by `setup_ssl`: whether the SSL
handle allocates, whether the file descriptor attaches, the outcome of each
handshake attempt, whether `SSL_get_verify_result` reports `X509_V_OK`, and
whether `SSL_get_peer_certificate` returns a certificate. -/
structure SSLOracle where
  ssl_new_ok : Bool
  set_fd_ok : Bool
  hs : List HsOutcome
  verify_result_ok : Bool
  peer_cert : Bool
deriving DecidableEq

/-- Embedding of `setup_ssl`: allocate, attach, run the handshake retry
loop, then check the two post-handshake conditions — chain verification
valid and peer certificate present — each failing with a fatal
`HandshakeError`. -/
def setup_ssl (o : SSLOracle) : Option (List Event × Except CtrlError Unit) :=
  if !o.ssl_new_ok then
    some ([], Except.error (CtrlError.fatalOther "could not SSL_new"))
  else if !o.set_fd_ok then
    some ([], Except.error (CtrlError.fatalOther "could not SSL_set_fd"))
  else
    match handshakeLoop o.hs with
    | none => none
    | some (tr, Except.error e) => some (tr, Except.error e)
    | some (tr, Except.ok ()) =>
      if !o.verify_result_ok then
        some (tr, Except.error (CtrlError.handshakeError
          "SSL verification failed"))
      else if !o.peer_cert then
        some (tr, Except.error (CtrlError.handshakeError
          "Server presented no peer certificate"))
      else
        some (tr, Except.ok ())

/-- Outcome of one `SSL_read` call in the response loop: a positive read
delivering a chunk of bytes, a non-positive result classified
`SSL_ERROR_ZERO_RETURN` (the peer's orderly shutdown), or any other
non-positive result (carrying the error code). -/
inductive ReadOutcome where
  | chunk : Bytes → ReadOutcome
  | zeroReturn
  | fail : Nat → ReadOutcome
deriving DecidableEq

/-- The fixed request the code writes: `"GET / HTTP/1.0\n\n"`, as bytes. -/
def cmdBytes : Bytes := "GET / HTTP/1.0\n\n".data.map Char.toNat

/-- What `buf[r] = 0; printf("%s", buf)` displays of a received chunk: the
bytes up to the first NUL byte. -/
def truncAtNul (b : Bytes) : Bytes := b.takeWhile (fun x => x ≠ 0)

/-- Embedding of the `while(1)` read loop of `go_cmd`: each delivered chunk
is NUL-terminated into the buffer and displayed at once; an orderly
shutdown ends the loop successfully; any other non-positive read is a fatal
`TransportError`.  The result carries the list of displayed chunks; `none`
means the oracle list ran out, i.e. the loop is still blocked reading. -/
def readLoop : List ReadOutcome → Option (List Event × Except CtrlError (List Bytes))
  | [] => none
  | ReadOutcome.chunk b :: rest =>
    (readLoop rest).map (fun pr =>
      (Event.sslRead :: Event.display (truncAtNul b) :: pr.1,
        match pr.2 with
        | Except.ok outs => Except.ok (truncAtNul b :: outs)
        | Except.error e => Except.error e))
  | ReadOutcome.zeroReturn :: _ => some ([Event.sslRead], Except.ok [])
  | ReadOutcome.fail _ :: _ =>
    some ([Event.sslRead],
      Except.error (CtrlError.transportError "could not SSL_read"))

/-- Embedding of `go_cmd`: write the fixed request string (a single write;
a non-positive result is a fatal `TransportError`), then run the read loop.
The command-line arguments are passed in, as in the code, but are not used
by the code. -/
def go_cmd (write_ok : Bool) (reads : List ReadOutcome)
    (argv : List (List Char)) :
    Option (List Event × Except CtrlError (List Bytes)) :=
  if !write_ok then
    some ([Event.sslWrite cmdBytes],
      Except.error (CtrlError.transportError "could not SSL_write"))
  else
    (readLoop reads).map (fun pr => (Event.sslWrite cmdBytes :: pr.1, pr.2))

/-- All oracle outcomes of one invocation. -/
structure World where
  cfg : ConfigFile
  config_ok : Bool
  ctxo : CtxOracle
  net : NetOracle
  sslo : SSLOracle
  write_ok : Bool
  reads : List ReadOutcome
deriving DecidableEq

/-- Embedding of `go`: read the config, build the SSL context, contact the
server, set up SSL on the connection, send the command and display the
result, then tear down.  A fatal error at any stage ends the invocation
with that error (the code exits the process); teardown runs only on the
successful path, as in the code. -/
def go (w : World) (svr? : Option (List Char)) (argv : List (List Char)) :
    Option (List Event × Except CtrlError (List Bytes)) :=
  if !w.config_ok then
    some ([Event.readConfig],
      Except.error (CtrlError.fatalOther "could not read config file"))
  else
    let tr1 := Event.readConfig ::
      (if !w.cfg.remote_control_enable then [Event.warnDisabled] else [])
    match setup_ctx w.cfg w.ctxo with
    | (trc, Except.error e) => some (tr1 ++ trc, Except.error e)
    | (trc, Except.ok _ctx) =>
      match contact_server svr? w.cfg w.net with
      | (trs, Except.error e) => some (tr1 ++ trc ++ trs, Except.error e)
      | (trs, Except.ok _ep) =>
        match setup_ssl w.sslo with
        | none => none
        | some (trh, Except.error e) =>
          some (tr1 ++ trc ++ trs ++ trh, Except.error e)
        | some (trh, Except.ok ()) =>
          match go_cmd w.write_ok w.reads argv with
          | none => none
          | some (trg, Except.error e) =>
            some (tr1 ++ trc ++ trs ++ trh ++ trg, Except.error e)
          | some (trg, Except.ok outs) =>
            some (tr1 ++ trc ++ trs ++ trh ++ trg ++ [Event.teardown],
              Except.ok outs)

lemma splitAtMarker_eq_none {l : List Char} :
    splitAtMarker l = none ↔ '@' ∉ l := by
  induction l with
  | nil => simp [splitAtMarker]
  | cons c rest ih =>
    by_cases hc : c = '@'
    · subst hc
      simp [splitAtMarker]
    · cases h : splitAtMarker rest with
      | none =>
        have hrest : '@' ∉ rest := ih.mp h
        simp only [splitAtMarker, if_neg hc, h, List.mem_cons]
        constructor
        · intro _ hor
          rcases hor with h1 | h2
          · exact hc h1.symm
          · exact hrest h2
        · intro _
          trivial
      | some pr =>
        obtain ⟨a, b⟩ := pr
        have hrest : '@' ∈ rest := by
          by_contra hmem
          rw [ih.mpr hmem] at h
          exact Option.noConfusion h
        simp [splitAtMarker, if_neg hc, h, hrest]

lemma splitAtMarker_append {a : List Char} (p : List Char) (h : '@' ∉ a) :
    splitAtMarker (a ++ '@' :: p) = some (a, p) := by
  induction a with
  | nil => simp [splitAtMarker]
  | cons c a0 ih =>
    have hc : ¬ c = '@' := fun hh => h (by simp [hh])
    have ha : '@' ∉ a0 := fun hm => h (List.mem_cons_of_mem c hm)
    simp [splitAtMarker, hc, ih ha]

lemma splitOnChar_ne_nil (sep : Char) (l : List Char) :
    splitOnChar sep l ≠ [] := by
  cases l with
  | nil => simp [splitOnChar]
  | cons c rest =>
    cases h : splitOnChar sep rest with
    | nil => simp [splitOnChar, h]
    | cons x t => by_cases hc : c = sep <;> simp [splitOnChar, h, hc]

lemma mem_splitOnChar {c sep : Char} {l : List Char} (hmem : c ∈ l)
    (hne : c ≠ sep) : ∃ part, part ∈ splitOnChar sep l ∧ c ∈ part := by
  induction l with
  | nil => simp at hmem
  | cons d rest ih =>
    cases hsp : splitOnChar sep rest with
    | nil => exact absurd hsp (splitOnChar_ne_nil sep rest)
    | cons hh tt =>
      rcases List.mem_cons.mp hmem with rfl | hmem0
      · refine ⟨c :: hh, ?_, List.mem_cons_self _ _⟩
        simp [splitOnChar, hsp, hne]
      · rcases ih hmem0 with ⟨part, hp, hcp⟩
        rw [hsp] at hp
        by_cases hd : d = sep
        · refine ⟨part, ?_, hcp⟩
          simp only [splitOnChar, hsp, if_pos hd]
          exact List.mem_cons_of_mem _ hp
        · rcases List.mem_cons.mp hp with rfl | hp0
          · refine ⟨d :: part, ?_, List.mem_cons_of_mem _ hcp⟩
            simp [splitOnChar, hsp, hd]
          · refine ⟨part, ?_, hcp⟩
            simp only [splitOnChar, hsp, if_neg hd]
            exact List.mem_cons_of_mem _ hp0

lemma isValidAddr_marker {a : List Char} (h : isValidAddr a = true) :
    '@' ∉ a := by
  intro hmem
  have hne : ('@' : Char) ≠ '.' := by decide
  rcases mem_splitOnChar hmem hne with ⟨part, hp, hcp⟩
  have h2 := (Bool.and_eq_true _ _ |>.mp h).2
  have hoct : isOctet part = true := List.all_eq_true.mp h2 part hp
  have hdig : part.all Char.isDigit = true := by
    have h3 := (Bool.and_eq_true _ _ |>.mp hoct).1
    exact (Bool.and_eq_true _ _ |>.mp h3).2
  have : Char.isDigit '@' = true := List.all_eq_true.mp hdig '@' hcp
  exact absurd this (by decide)

/-- C4: an endpoint string with the explicit port marker, a valid address
and a numeric port resolves to exactly that address/port pair; a string
without the marker is combined with the configured default port when the
address is valid and rejected otherwise; and whenever resolution fails,
`contact_server` exits with a fatal `AddressError` and its event trace is
just the resolution attempt — no socket is created and no connect is
attempted. -/
theorem c4_endpoint_resolution (a p s : List Char) (d : Nat)
    (cfg : ConfigFile) (net : NetOracle)
    (hva : isValidAddr a = true) (hp : isPortStr p = true) :
    resolveSvr (a ++ '@' :: p) d = some ⟨a, digitsToNat p⟩
    ∧ ('@' ∉ s → resolveSvr s d =
        (if isValidAddr s then some ⟨s, d⟩ else none))
    ∧ (resolveSvr s cfg.control_port = none →
        ∃ msg, contact_server (some s) cfg net =
          ([Event.resolveAddr s],
            Except.error (CtrlError.addressError msg))) := by
  refine ⟨?_, ?_, ?_⟩
  · have hsplit := splitAtMarker_append p (isValidAddr_marker hva)
    simp [resolveSvr, extstrtoaddr, hsplit, hva, hp]
  · intro hs
    have hsplit := splitAtMarker_eq_none.mpr hs
    simp [resolveSvr, ipstrtoaddr, hsplit]
  · intro hr
    cases hsm : splitAtMarker s with
    | none =>
      exact ⟨"could not parse IP",
        by simp [contact_server, chooseSvr, hr, hsm]⟩
    | some pr =>
      exact ⟨"could not parse IP@port",
        by simp [contact_server, chooseSvr, hr, hsm]⟩

lemma hsLoop_sound {os : List HsOutcome} {tr : List Event}
    {r : Except CtrlError Unit} (h : handshakeLoop os = some (tr, r)) :
    ∃ pre o rest, os = pre ++ o :: rest
      ∧ (∀ x ∈ pre, wouldBlock x = true)
      ∧ wouldBlock o = false
      ∧ tr = List.replicate (pre.length + 1) Event.handshakeStep
      ∧ ((o = HsOutcome.ok ∧ r = Except.ok ())
         ∨ (∃ c, o = HsOutcome.fail c
            ∧ r = Except.error (CtrlError.handshakeError
              "SSL handshake failed"))) := by
  induction os generalizing tr r with
  | nil => simp [handshakeLoop] at h
  | cons o rest ih =>
    cases o with
    | ok =>
      simp only [handshakeLoop, Option.some.injEq, Prod.mk.injEq] at h
      rcases h with ⟨rfl, rfl⟩
      exact ⟨[], HsOutcome.ok, rest, rfl, by simp, rfl, rfl,
        Or.inl ⟨rfl, rfl⟩⟩
    | fail c =>
      simp only [handshakeLoop, Option.some.injEq, Prod.mk.injEq] at h
      rcases h with ⟨rfl, rfl⟩
      exact ⟨[], HsOutcome.fail c, rest, rfl, by simp, rfl, rfl,
        Or.inr ⟨c, rfl, rfl⟩⟩
    | wantRead =>
      cases hr : handshakeLoop rest with
      | none => simp [handshakeLoop, hr] at h
      | some pr =>
        obtain ⟨tr0, r0⟩ := pr
        simp only [handshakeLoop, hr, Option.map_some', Option.some.injEq,
          Prod.mk.injEq] at h
        rcases h with ⟨rfl, rfl⟩
        rcases ih hr with ⟨pre, o, rest2, heq, hpre, ho, htr, hres⟩
        refine ⟨HsOutcome.wantRead :: pre, o, rest2, by simp [heq], ?_, ho,
          ?_, hres⟩
        · intro x hx
          rcases List.mem_cons.mp hx with rfl | hx0
          · rfl
          · exact hpre x hx0
        · simp [htr, List.replicate_succ]
    | wantWrite =>
      cases hr : handshakeLoop rest with
      | none => simp [handshakeLoop, hr] at h
      | some pr =>
        obtain ⟨tr0, r0⟩ := pr
        simp only [handshakeLoop, hr, Option.map_some', Option.some.injEq,
          Prod.mk.injEq] at h
        rcases h with ⟨rfl, rfl⟩
        rcases ih hr with ⟨pre, o, rest2, heq, hpre, ho, htr, hres⟩
        refine ⟨HsOutcome.wantWrite :: pre, o, rest2, by simp [heq], ?_, ho,
          ?_, hres⟩
        · intro x hx
          rcases List.mem_cons.mp hx with rfl | hx0
          · rfl
          · exact hpre x hx0
        · simp [htr, List.replicate_succ]

lemma hsLoop_complete {pre : List HsOutcome} {o : HsOutcome}
    (rest : List HsOutcome) (hpre : ∀ x ∈ pre, wouldBlock x = true)
    {r : Except CtrlError Unit}
    (hr : (o = HsOutcome.ok ∧ r = Except.ok ())
      ∨ (∃ c, o = HsOutcome.fail c
         ∧ r = Except.error (CtrlError.handshakeError
           "SSL handshake failed"))) :
    handshakeLoop (pre ++ o :: rest)
      = some (List.replicate (pre.length + 1) Event.handshakeStep, r) := by
  induction pre with
  | nil =>
    rcases hr with ⟨rfl, rfl⟩ | ⟨c, rfl, rfl⟩ <;> simp [handshakeLoop]
  | cons x pre0 ih =>
    have hx : wouldBlock x = true := hpre x (List.mem_cons_self _ _)
    have hpre0 : ∀ y ∈ pre0, wouldBlock y = true :=
      fun y hy => hpre y (List.mem_cons_of_mem _ hy)
    have hrec := ih hpre0
    cases x with
    | wantRead => simp [handshakeLoop, hrec, List.replicate_succ]
    | wantWrite => simp [handshakeLoop, hrec, List.replicate_succ]
    | ok => simp [wouldBlock] at hx
    | fail c => simp [wouldBlock] at hx

/-- C5: the handshake loop re-attempts the handshake step exactly while
the outcome is would-block-on-read or would-block-on-write: a completed
loop run consumed a (possibly empty) all-would-block sequence of attempts
followed by one decisive attempt; a success there ends the loop, any other
negative outcome is a fatal `HandshakeError` immediately (later oracle
entries are never consulted, so there is no retry-with-backoff); and the
loop performs only handshake-step events, so no reconnection occurs. -/
theorem c5_handshake_retry_loop (os : List HsOutcome) (tr : List Event)
    (r : Except CtrlError Unit) :
    handshakeLoop os = some (tr, r) ↔
      ∃ pre o rest, os = pre ++ o :: rest
        ∧ (∀ x ∈ pre, wouldBlock x = true)
        ∧ wouldBlock o = false
        ∧ tr = List.replicate (pre.length + 1) Event.handshakeStep
        ∧ ((o = HsOutcome.ok ∧ r = Except.ok ())
           ∨ (∃ c, o = HsOutcome.fail c
              ∧ r = Except.error (CtrlError.handshakeError
                "SSL handshake failed"))) := by
  constructor
  · exact hsLoop_sound
  · rintro ⟨pre, o, rest, rfl, hpre, ho, rfl, hr⟩
    exact hsLoop_complete rest hpre hr

lemma truncAtNul_eq_self {b : Bytes} (h : (0 : Nat) ∉ b) :
    truncAtNul b = b := by
  induction b with
  | nil => rfl
  | cons x rest ih =>
    have hx : x ≠ 0 := fun hh => h (by simp [hh])
    have hrest : (0 : Nat) ∉ rest := fun hm => h (List.mem_cons_of_mem _ hm)
    simp [truncAtNul, List.takeWhile_cons, hx]
    simpa [truncAtNul] using ih hrest

/-- The read/display event pairs the read loop performs for a list of
delivered chunks. -/
def chunkEvents (chunks : List Bytes) : List Event :=
  (chunks.map (fun b => [Event.sslRead, Event.display (truncAtNul b)])).flatten

lemma readLoop_chunks (chunks : List Bytes) (tail : List ReadOutcome) :
    readLoop (chunks.map ReadOutcome.chunk ++ tail) =
      (readLoop tail).map (fun pr =>
        (chunkEvents chunks ++ pr.1,
          match pr.2 with
          | Except.ok outs => Except.ok (chunks.map truncAtNul ++ outs)
          | Except.error e => Except.error e)) := by
  induction chunks with
  | nil =>
    cases h : readLoop tail with
    | none => simp [chunkEvents, h]
    | some pr =>
      obtain ⟨tr, r⟩ := pr
      cases r <;> simp [chunkEvents, h]
  | cons b rest ih =>
    cases h : readLoop tail with
    | none =>
      have h2 : readLoop (List.map ReadOutcome.chunk rest ++ tail) = none := by
        rw [ih, h]
        rfl
      simp [readLoop, h2, h]
    | some pr =>
      obtain ⟨tr, r⟩ := pr
      have h2 := ih
      rw [h] at h2
      cases r with
      | ok outs =>
        simp only [Option.map_some'] at h2
        simp [readLoop, h2, h, chunkEvents]
      | error e =>
        simp only [Option.map_some'] at h2
        simp [readLoop, h2, h, chunkEvents]

lemma readLoop_events {rs : List ReadOutcome} {tr : List Event}
    {r : Except CtrlError (List Bytes)} (h : readLoop rs = some (tr, r)) :
    ∀ e ∈ tr, e = Event.sslRead ∨ ∃ b, e = Event.display b := by
  induction rs generalizing tr r with
  | nil => simp [readLoop] at h
  | cons x rest ih =>
    cases x with
    | chunk b =>
      cases hr : readLoop rest with
      | none => simp [readLoop, hr] at h
      | some pr =>
        obtain ⟨tr0, r0⟩ := pr
        simp only [readLoop, hr, Option.map_some', Option.some.injEq,
          Prod.mk.injEq] at h
        rcases h with ⟨rfl, -⟩
        intro e he
        rcases List.mem_cons.mp he with rfl | he0
        · exact Or.inl rfl
        · rcases List.mem_cons.mp he0 with rfl | he1
          · exact Or.inr ⟨truncAtNul b, rfl⟩
          · exact ih hr e he1
    | zeroReturn =>
      simp only [readLoop, Option.some.injEq, Prod.mk.injEq] at h
      rcases h with ⟨rfl, -⟩
      intro e he
      rcases List.mem_cons.mp he with rfl | he0
      · exact Or.inl rfl
      · simp at he0
    | fail c =>
      simp only [readLoop, Option.some.injEq, Prod.mk.injEq] at h
      rcases h with ⟨rfl, -⟩
      intro e he
      rcases List.mem_cons.mp he with rfl | he0
      · exact Or.inl rfl
      · simp at he0

lemma map_truncAtNul_eq {chunks : List Bytes}
    (h : ∀ b ∈ chunks, (0 : Nat) ∉ b) : chunks.map truncAtNul = chunks := by
  induction chunks with
  | nil => rfl
  | cons b rest ih =>
    have hb := truncAtNul_eq_self (h b (List.mem_cons_self _ _))
    have hr := ih (fun y hy => h y (List.mem_cons_of_mem _ hy))
    simp [hb, hr]

lemma chunkEvents_eq {chunks : List Bytes}
    (h : ∀ b ∈ chunks, (0 : Nat) ∉ b) :
    chunkEvents chunks =
      (chunks.map (fun b => [Event.sslRead, Event.display b])).flatten := by
  induction chunks with
  | nil => rfl
  | cons b rest ih =>
    have hb := truncAtNul_eq_self (h b (List.mem_cons_self _ _))
    have hr := ih (fun y hy => h y (List.mem_cons_of_mem _ hy))
    simp [chunkEvents, hb]
    simpa [chunkEvents] using hr

/-- C6 (amended): when the peer delivers the response as a sequence of
chunks, each a positive read of at most the buffer size and containing no
NUL byte, the exchanger emits for each chunk a read event immediately
followed by the display of exactly that chunk, so the displayed output is
the concatenation of all chunks in arrival order; a chunk containing a NUL
byte would be truncated at it, which is why the NUL-freedom hypothesis is
needed. -/
theorem c6_streamed_concatenation (chunks : List Bytes)
    (argv : List (List Char))
    (hsz : ∀ b ∈ chunks, 0 < b.length ∧ b.length ≤ 1023)
    (hnul : ∀ b ∈ chunks, (0 : Nat) ∉ b) :
    go_cmd true (chunks.map ReadOutcome.chunk ++ [ReadOutcome.zeroReturn])
      argv
      = some (Event.sslWrite cmdBytes ::
          ((chunks.map (fun b => [Event.sslRead, Event.display b])).flatten
            ++ [Event.sslRead]),
        Except.ok chunks) := by
  have h := readLoop_chunks chunks [ReadOutcome.zeroReturn]
  have hz : readLoop [ReadOutcome.zeroReturn]
      = some ([Event.sslRead], Except.ok []) := rfl
  rw [hz] at h
  simp only [Option.map_some'] at h
  simp [go_cmd, h, map_truncAtNul_eq hnul, chunkEvents_eq hnul]

/-- C6 (counterexample to the claim as stated): a single delivered chunk
containing an inner NUL byte is displayed truncated at the NUL
(`buf[r] = 0; printf` stops at the first NUL), so the output is not the
verbatim concatenation of the received bytes. -/
theorem c6_nul_truncation_counterexample :
    go_cmd true [ReadOutcome.chunk [65, 0, 66], ReadOutcome.zeroReturn] []
      = some ([Event.sslWrite cmdBytes, Event.sslRead, Event.display [65],
          Event.sslRead], Except.ok [[65]])
    ∧ ([[65]] : List Bytes).flatten ≠ [65, 0, 66] := by
  exact ⟨rfl, by decide⟩

/-- C6 witness: three chunks delivered separately are displayed as exactly
those three chunks, in order, each immediately after its read. -/
theorem c6_streamed_concatenation_witness :
    go_cmd true [ReadOutcome.chunk [104, 105], ReadOutcome.chunk [33],
        ReadOutcome.chunk [10], ReadOutcome.zeroReturn] []
      = some ([Event.sslWrite cmdBytes,
          Event.sslRead, Event.display [104, 105],
          Event.sslRead, Event.display [33],
          Event.sslRead, Event.display [10],
          Event.sslRead],
        Except.ok [[104, 105], [33], [10]]) := by
  have h := c6_streamed_concatenation [[104, 105], [33], [10]] []
    (by decide) (by decide)
  simpa using h

/-- C7: an orderly channel closure immediately after the request is
written ends the read loop successfully with an empty response; and a read
reporting any other non-positive result — even after any number of
delivered chunks — is a fatal `TransportError` (the remaining oracle
entries are never consulted). -/
theorem c7_orderly_close (argv : List (List Char)) (c : Nat)
    (chunks : List Bytes) (rest : List ReadOutcome) :
    go_cmd true [ReadOutcome.zeroReturn] argv
      = some ([Event.sslWrite cmdBytes, Event.sslRead], Except.ok [])
    ∧ go_cmd true (chunks.map ReadOutcome.chunk
        ++ ReadOutcome.fail c :: rest) argv
      = some (Event.sslWrite cmdBytes ::
          (chunkEvents chunks ++ [Event.sslRead]),
        Except.error (CtrlError.transportError "could not SSL_read")) := by
  constructor
  · rfl
  · have h := readLoop_chunks chunks (ReadOutcome.fail c :: rest)
    have hf : readLoop (ReadOutcome.fail c :: rest)
        = some ([Event.sslRead],
            Except.error (CtrlError.transportError "could not SSL_read")) :=
      rfl
    rw [hf] at h
    simp only [Option.map_some'] at h
    simp [go_cmd, h]

/-- C1: at the failing input — command argument `STATS` over an
established channel that is closed cleanly by the peer — the exchanger
writes the fixed placeholder request `GET / HTTP/1.0` (two newlines)
rather than the caller-supplied command bytes: the command arguments are
never consulted, contradicting the claim (and the code's own description
of sending the command). -/
theorem c1_fixed_request_not_payload :
    go_cmd true [ReadOutcome.zeroReturn] ["STATS".data]
      = some ([Event.sslWrite cmdBytes, Event.sslRead], Except.ok [])
    ∧ cmdBytes = "GET / HTTP/1.0\n\n".data.map Char.toNat
    ∧ cmdBytes ≠ "STATS".data.map Char.toNat := by
  refine ⟨rfl, rfl, by decide⟩

/-- The payloads of the write events of a trace. -/
def writeEvents (tr : List Event) : List Bytes :=
  tr.filterMap (fun e =>
    match e with
    | Event.sslWrite b => some b
    | _ => none)

lemma writeEvents_nil {tr : List Event}
    (hev : ∀ e ∈ tr, e = Event.sslRead ∨ ∃ b, e = Event.display b) :
    writeEvents tr = [] := by
  induction tr with
  | nil => rfl
  | cons e tr0 ih =>
    have he := hev e (List.mem_cons_self _ _)
    have ht := ih (fun x hx => hev x (List.mem_cons_of_mem _ hx))
    rcases he with rfl | ⟨b, rfl⟩ <;> simpa [writeEvents] using ht

lemma readLoop_no_write {rs : List ReadOutcome} {tr : List Event}
    {r : Except CtrlError (List Bytes)} (h : readLoop rs = some (tr, r)) :
    writeEvents tr = [] :=
  writeEvents_nil (readLoop_events h)

/-- C10: the bytes written over the channel by the command exchanger do
not depend on the caller-supplied command arguments — two invocations in
the same channel state with different arguments produce identical results
— and whenever the exchange runs, the write events of its trace are
exactly one write of the fixed request string. -/
theorem c10_write_independent_of_args (write_ok : Bool)
    (reads : List ReadOutcome) (argv1 argv2 : List (List Char)) :
    go_cmd write_ok reads argv1 = go_cmd write_ok reads argv2
    ∧ (∀ tr r, go_cmd write_ok reads argv1 = some (tr, r) →
        writeEvents tr = [cmdBytes]) := by
  constructor
  · rfl
  · intro tr r h
    cases write_ok with
    | false =>
      simp only [go_cmd, Bool.not_false, Bool.false_eq_true, if_neg,
        Option.some.injEq, Prod.mk.injEq] at h
      rcases h with ⟨rfl, -⟩
      rfl
    | true =>
      cases hr : readLoop reads with
      | none => simp [go_cmd, hr] at h
      | some pr =>
        obtain ⟨tr0, r0⟩ := pr
        simp only [go_cmd, hr, Option.map_some', Option.some.injEq,
          Prod.mk.injEq, Bool.not_true, if_neg] at h
        rcases h with ⟨rfl, -⟩
        have h0 := readLoop_no_write hr
        simp [writeEvents] at h0 ⊢
        simpa [writeEvents] using h0

lemma setup_ctx_ok {cfg : ConfigFile} {o : CtxOracle} {tr : List Event}
    {ctx : SSL_CTX} (h : setup_ctx cfg o = (tr, Except.ok ctx)) :
    tr = [Event.buildCtx] ∧ ctx = ⟨true, true⟩ := by
  simp only [setup_ctx, Prod.mk.injEq] at h
  obtain ⟨h1, h2⟩ := h
  refine ⟨h1.symm, ?_⟩
  split at h2
  · exact absurd h2 (by simp)
  split at h2
  · exact absurd h2 (by simp)
  split at h2
  · exact absurd h2 (by simp)
  split at h2
  · exact absurd h2 (by simp)
  exact (Except.ok.inj h2).symm

/-- C9: for every configuration and every oracle outcome, a successfully
built trust context has the legacy SSLv2 protocol disabled and mandatory
peer verification enabled, and any two successfully built contexts are
identical — so no configuration value can alter this policy. -/
theorem c9_fixed_trust_policy (cfg cfg2 : ConfigFile) (o o2 : CtxOracle)
    (tr tr2 : List Event) (ctx ctx2 : SSL_CTX)
    (h : setup_ctx cfg o = (tr, Except.ok ctx))
    (h2 : setup_ctx cfg2 o2 = (tr2, Except.ok ctx2)) :
    ctx.no_sslv2 = true ∧ ctx.verify_peer = true ∧ ctx = ctx2 := by
  have e1 := (setup_ctx_ok h).2
  have e2 := (setup_ctx_ok h2).2
  exact ⟨by rw [e1], by rw [e1], by rw [e1, e2]⟩

/-- A concrete configuration used by the witnesses. -/
def cfg0 : ConfigFile :=
  ⟨"server.pem", "control.key", "control.pem", 8953, [], true⟩

/-- A second concrete configuration, differing from `cfg0` in every
configurable value. -/
def cfg1 : ConfigFile :=
  ⟨"other-server.pem", "other.key", "other.pem", 1234,
    ["10.0.0.1".data], false⟩

/-- The all-successful credential-loading oracle. -/
def ctxoAllOk : CtxOracle := ⟨true, true, true, true, true, true⟩

/-- C9 witness: the context built from `cfg0` (and the one built from the
entirely different `cfg1`) has the fixed policy. -/
theorem c9_fixed_trust_policy_witness :
    (⟨true, true⟩ : SSL_CTX).no_sslv2 = true
    ∧ (⟨true, true⟩ : SSL_CTX).verify_peer = true
    ∧ (⟨true, true⟩ : SSL_CTX) = ⟨true, true⟩ :=
  c9_fixed_trust_policy cfg0 cfg1 ctxoAllOk ctxoAllOk
    [Event.buildCtx] [Event.buildCtx] ⟨true, true⟩ ⟨true, true⟩ rfl rfl

lemma setup_ssl_trace_steps {o : SSLOracle} {trh : List Event}
    {x : Except CtrlError Unit} (h : setup_ssl o = some (trh, x)) :
    ∀ e ∈ trh, e = Event.handshakeStep := by
  unfold setup_ssl at h
  cases hn : o.ssl_new_ok with
  | false =>
    rw [hn] at h
    simp only [Bool.not_false, if_pos, Option.some.injEq,
      Prod.mk.injEq] at h
    rcases h with ⟨rfl, -⟩
    intro e he
    simp at he
  | true =>
    rw [hn] at h
    cases hf : o.set_fd_ok with
    | false =>
      rw [hf] at h
      simp only [Bool.not_true, Bool.not_false, if_neg, if_pos,
        Bool.false_eq_true, Option.some.injEq, Prod.mk.injEq] at h
      rcases h with ⟨rfl, -⟩
      intro e he
      simp at he
    | true =>
      rw [hf] at h
      simp only [Bool.not_true, Bool.false_eq_true, if_neg] at h
      cases hh : handshakeLoop o.hs with
      | none => rw [hh] at h; exact Option.noConfusion h
      | some pr =>
        obtain ⟨tr0, r0⟩ := pr
        rw [hh] at h
        rcases hsLoop_sound hh with ⟨pre, o2, rest, -, -, -, htr, -⟩
        have hsteps : ∀ e ∈ tr0, e = Event.handshakeStep := by
          intro e he
          rw [htr] at he
          exact List.eq_of_mem_replicate he
        cases r0 with
        | error e0 =>
          simp only [Option.some.injEq, Prod.mk.injEq] at h
          rcases h with ⟨rfl, -⟩
          exact hsteps
        | ok u =>
          cases u
          cases hv : o.verify_result_ok with
          | false =>
            rw [hv] at h
            simp only [Bool.not_false, if_pos, Option.some.injEq,
              Prod.mk.injEq] at h
            rcases h with ⟨rfl, -⟩
            exact hsteps
          | true =>
            rw [hv] at h
            cases hp : o.peer_cert with
            | false =>
              rw [hp] at h
              simp only [Bool.not_true, Bool.not_false, if_neg, if_pos,
                Bool.false_eq_true, Option.some.injEq, Prod.mk.injEq] at h
              rcases h with ⟨rfl, -⟩
              exact hsteps
            | true =>
              rw [hp] at h
              simp only [Bool.not_true, Bool.false_eq_true, if_neg,
                Option.some.injEq, Prod.mk.injEq] at h
              rcases h with ⟨rfl, -⟩
              exact hsteps

lemma contact_server_no_write {svr? : Option (List Char)}
    {cfg : ConfigFile} {net : NetOracle} {trs : List Event}
    {res : Except CtrlError Endpoint}
    (h : contact_server svr? cfg net = (trs, res)) :
    ∀ b, Event.sslWrite b ∉ trs := by
  simp only [contact_server] at h
  cases hr : resolveSvr (chooseSvr svr? cfg) cfg.control_port with
  | none =>
    rw [hr] at h
    obtain ⟨rfl, -⟩ := Prod.mk.injEq .. ▸ h
    simp
  | some ep =>
    rw [hr] at h
    cases hs : net.socket_ok with
    | false =>
      rw [hs] at h
      simp only [Bool.not_false, if_pos, Prod.mk.injEq] at h
      rcases h with ⟨rfl, -⟩
      simp
    | true =>
      rw [hs] at h
      cases hc : net.connect_ok with
      | false =>
        rw [hc] at h
        simp only [Bool.not_true, Bool.not_false, if_neg, if_pos,
          Bool.false_eq_true, Prod.mk.injEq] at h
        rcases h with ⟨rfl, -⟩
        simp
      | true =>
        rw [hc] at h
        simp only [Bool.not_true, Bool.false_eq_true, if_neg,
          Prod.mk.injEq] at h
        rcases h with ⟨rfl, -⟩
        simp

lemma go_no_write_of_ssl_blocked {w : World} {svr? : Option (List Char)}
    {argv : List (List Char)} {tr2 : List Event}
    {r : Except CtrlError (List Bytes)}
    (hssl : ∀ trh x, setup_ssl w.sslo = some (trh, x) →
      ∃ e, x = Except.error e)
    (h : go w svr? argv = some (tr2, r)) :
    (∃ e, r = Except.error e) ∧ ∀ b, Event.sslWrite b ∉ tr2 := by
  unfold go at h
  cases hcfg : w.config_ok with
  | false =>
    rw [hcfg] at h
    simp only [Bool.not_false, if_pos, Option.some.injEq,
      Prod.mk.injEq] at h
    rcases h with ⟨rfl, rfl⟩
    exact ⟨⟨_, rfl⟩, by simp⟩
  | true =>
    rw [hcfg] at h
    simp only [Bool.not_true, Bool.false_eq_true, if_neg] at h
    rcases hctx : setup_ctx w.cfg w.ctxo with ⟨trc, resc⟩
    rw [hctx] at h
    have htrc : trc = [Event.buildCtx] := by
      have := congrArg Prod.fst hctx
      simpa [setup_ctx] using this.symm
    have htr1 : ∀ b, Event.sslWrite b ∉
        (Event.readConfig ::
          (if !w.cfg.remote_control_enable then [Event.warnDisabled]
           else [])) := by
      intro b
      cases hrc : w.cfg.remote_control_enable <;> simp [hrc]
    cases resc with
    | error e =>
      simp only [Option.some.injEq, Prod.mk.injEq] at h
      rcases h with ⟨rfl, rfl⟩
      refine ⟨⟨_, rfl⟩, ?_⟩
      intro b hb
      rcases List.mem_append.mp hb with hb1 | hb2
      · exact htr1 b hb1
      · rw [htrc] at hb2
        simp at hb2
    | ok ctx =>
      rcases hcs : contact_server svr? w.cfg w.net with ⟨trs, ress⟩
      rw [hcs] at h
      have htrs := contact_server_no_write hcs
      cases ress with
      | error e =>
        simp only [Option.some.injEq, Prod.mk.injEq] at h
        rcases h with ⟨rfl, rfl⟩
        refine ⟨⟨_, rfl⟩, ?_⟩
        intro b hb
        rcases List.mem_append.mp hb with hb1 | hb2
        · rcases List.mem_append.mp hb1 with hb3 | hb4
          · exact htr1 b hb3
          · rw [htrc] at hb4
            simp at hb4
        · exact htrs b hb2
      | ok ep =>
        cases hss : setup_ssl w.sslo with
        | none => rw [hss] at h; exact Option.noConfusion h
        | some prh =>
          obtain ⟨trh, x⟩ := prh
          rw [hss] at h
          rcases hssl trh x hss with ⟨e, rfl⟩
          have htrh := setup_ssl_trace_steps hss
          simp only [Option.some.injEq, Prod.mk.injEq] at h
          rcases h with ⟨rfl, rfl⟩
          refine ⟨⟨_, rfl⟩, ?_⟩
          intro b hb
          rcases List.mem_append.mp hb with hb1 | hb2
          · rcases List.mem_append.mp hb1 with hb3 | hb4
            · rcases List.mem_append.mp hb3 with hb5 | hb6
              · exact htr1 b hb5
              · rw [htrc] at hb6
                simp at hb6
            · exact htrs b hb4
          · have := htrh _ hb2
            exact Event.noConfusion this

/-- C2: once the handshake loop has completed successfully, the channel is
established if and only if both the chain-verification result is valid and
the peer presented a certificate; an invalid verification result fails
with `HandshakeError`, and so does — even with a valid verification
result — a missing peer certificate; and whenever either condition fails,
the whole invocation ends in an error whose event trace contains no write,
so the connection is never used for data. -/
theorem c2_post_handshake_validation (o : SSLOracle) (tr : List Event)
    (h1 : o.ssl_new_ok = true) (h2 : o.set_fd_ok = true)
    (hh : handshakeLoop o.hs = some (tr, Except.ok ())) :
    (setup_ssl o = some (tr, Except.ok ()) ↔
      o.verify_result_ok = true ∧ o.peer_cert = true)
    ∧ (o.verify_result_ok = false →
        setup_ssl o = some (tr, Except.error
          (CtrlError.handshakeError "SSL verification failed")))
    ∧ (o.verify_result_ok = true → o.peer_cert = false →
        setup_ssl o = some (tr, Except.error
          (CtrlError.handshakeError "Server presented no peer certificate")))
    ∧ ((o.verify_result_ok = false ∨ o.peer_cert = false) →
        ∀ (w : World) (svr? : Option (List Char))
          (argv : List (List Char)) (tr2 : List Event)
          (r : Except CtrlError (List Bytes)),
          w.sslo = o → go w svr? argv = some (tr2, r) →
          (∃ e, r = Except.error e) ∧ ∀ b, Event.sslWrite b ∉ tr2) := by
  have mk_d : (∃ m, setup_ssl o
      = some (tr, Except.error (CtrlError.handshakeError m))) →
      ∀ (w : World) (svr? : Option (List Char)) (argv : List (List Char))
        (tr2 : List Event) (r : Except CtrlError (List Bytes)),
        w.sslo = o → go w svr? argv = some (tr2, r) →
        (∃ e, r = Except.error e) ∧ ∀ b, Event.sslWrite b ∉ tr2 := by
    rintro ⟨m, hset⟩ w svr? argv tr2 r hw hgo
    refine go_no_write_of_ssl_blocked ?_ hgo
    intro trh x hx
    rw [hw, hset] at hx
    have hinj := Option.some.inj hx
    exact ⟨_, (congrArg Prod.snd hinj).symm⟩
  cases hv : o.verify_result_ok with
  | true =>
    cases hp : o.peer_cert with
    | true =>
      have hset : setup_ssl o = some (tr, Except.ok ()) := by
        simp [setup_ssl, h1, h2, hh, hv, hp]
      exact ⟨by simp [hset], by simp [hv], by simp [hp], by simp [hv, hp]⟩
    | false =>
      have hset : setup_ssl o = some (tr, Except.error
          (CtrlError.handshakeError
            "Server presented no peer certificate")) := by
        simp [setup_ssl, h1, h2, hh, hv, hp]
      refine ⟨?_, by simp [hv], fun _ _ => hset,
        fun _ => mk_d ⟨_, hset⟩⟩
      constructor
      · intro hcontra
        rw [hset] at hcontra
        simp at hcontra
      · rintro ⟨-, hcontra⟩
        exact absurd hcontra (by simp)
  | false =>
    have hset : setup_ssl o = some (tr, Except.error
        (CtrlError.handshakeError "SSL verification failed")) := by
      simp [setup_ssl, h1, h2, hh, hv]
    refine ⟨?_, fun _ => hset, by simp [hv], fun _ => mk_d ⟨_, hset⟩⟩
    constructor
    · intro hcontra
      rw [hset] at hcontra
      simp at hcontra
    · rintro ⟨hcontra, -⟩
      exact absurd hcontra (by simp)

/-- C2 witness: a peer that completes the handshake (after one would-block
retry) with a valid chain-verification result but no certificate makes the
channel establisher fail with `HandshakeError`. -/
theorem c2_post_handshake_validation_witness :
    setup_ssl ⟨true, true, [HsOutcome.wantRead, HsOutcome.ok], true, false⟩
      = some ([Event.handshakeStep, Event.handshakeStep],
          Except.error (CtrlError.handshakeError
            "Server presented no peer certificate")) :=
  (c2_post_handshake_validation
    ⟨true, true, [HsOutcome.wantRead, HsOutcome.ok], true, false⟩
    [Event.handshakeStep, Event.handshakeStep] rfl rfl rfl).2.2.1 rfl rfl

/-- C3: in any invocation whose credential files load but whose private
key does not match the client certificate, the run fails with
`CredentialError` and the event trace contains no socket creation and no
connect — the failure happens before any network contact. -/
theorem c3_key_mismatch_no_connect (w : World) (svr? : Option (List Char))
    (argv : List (List Char)) (tr : List Event)
    (r : Except CtrlError (List Bytes))
    (hcfg : w.config_ok = true)
    (hf : w.ctxo.fnames_ok = true) (hn : w.ctxo.ctx_new_ok = true)
    (hc : w.ctxo.use_cert_ok = true) (hk : w.ctxo.use_key_ok = true)
    (hm : w.ctxo.key_matches_cert = false)
    (h : go w svr? argv = some (tr, r)) :
    r = Except.error (CtrlError.credentialError
      "Error setting up SSL_CTX client key and cert")
    ∧ Event.sockCreate ∉ tr
    ∧ (∀ a pn, Event.sockConnect a pn ∉ tr) := by
  have hctx : setup_ctx w.cfg w.ctxo = ([Event.buildCtx],
      Except.error (CtrlError.credentialError
        "Error setting up SSL_CTX client key and cert")) := by
    simp [setup_ctx, hf, hn, hc, hk, hm]
  unfold go at h
  rw [hcfg] at h
  simp only [Bool.not_true, Bool.false_eq_true, if_neg] at h
  rw [hctx] at h
  simp only [Option.some.injEq, Prod.mk.injEq] at h
  rcases h with ⟨rfl, rfl⟩
  refine ⟨rfl, ?_, ?_⟩ <;>
    cases hrc : w.cfg.remote_control_enable <;> simp [hrc]

/-- A concrete world whose private key does not match its client
certificate. -/
def wMismatch : World :=
  ⟨cfg0, true, ⟨true, true, true, true, false, true⟩, ⟨true, true⟩,
    ⟨true, true, [HsOutcome.ok], true, true⟩, true,
    [ReadOutcome.zeroReturn]⟩

/-- C3 witness: the mismatched-key world fails with `CredentialError` and
its trace holds no socket creation and no connect. -/
theorem c3_key_mismatch_no_connect_witness :
    (Except.error (CtrlError.credentialError
        "Error setting up SSL_CTX client key and cert")
      : Except CtrlError (List Bytes))
      = Except.error (CtrlError.credentialError
        "Error setting up SSL_CTX client key and cert")
    ∧ Event.sockCreate ∉ [Event.readConfig, Event.buildCtx]
    ∧ (∀ a pn, Event.sockConnect a pn ∉
        [Event.readConfig, Event.buildCtx]) :=
  c3_key_mismatch_no_connect wMismatch none [] [Event.readConfig,
    Event.buildCtx] (Except.error (CtrlError.credentialError
      "Error setting up SSL_CTX client key and cert"))
    rfl rfl rfl rfl rfl rfl rfl

/-- C4 witness: `127.0.0.1(at)8953` resolves to exactly that address/port
pair; `notanip` is rejected, and `contact_server` on it exits with
`AddressError` after the resolution attempt alone. -/
theorem c4_endpoint_resolution_witness :
    resolveSvr ("127.0.0.1".data ++ '@' :: "8953".data) 99
      = some ⟨"127.0.0.1".data, 8953⟩
    ∧ resolveSvr "notanip".data 99
      = (if isValidAddr "notanip".data then some ⟨"notanip".data, 99⟩
         else none)
    ∧ ∃ msg, contact_server (some "notanip".data) cfg0 ⟨true, true⟩
        = ([Event.resolveAddr "notanip".data],
            Except.error (CtrlError.addressError msg)) := by
  have h := c4_endpoint_resolution "127.0.0.1".data "8953".data
    "notanip".data 99 cfg0 ⟨true, true⟩ (by decide) (by decide)
  exact ⟨h.1, h.2.1 (by decide), h.2.2 (by decide)⟩

lemma contact_server_ok {svr? : Option (List Char)} {cfg : ConfigFile}
    {net : NetOracle} {trs : List Event} {ep : Endpoint}
    (h : contact_server svr? cfg net = (trs, Except.ok ep)) :
    trs = [Event.resolveAddr (chooseSvr svr? cfg), Event.sockCreate,
      Event.sockConnect ep.addr ep.port] := by
  simp only [contact_server] at h
  cases hr : resolveSvr (chooseSvr svr? cfg) cfg.control_port with
  | none =>
    rw [hr] at h
    simp at h
  | some ep0 =>
    rw [hr] at h
    cases hs : net.socket_ok with
    | false =>
      rw [hs] at h
      simp at h
    | true =>
      rw [hs] at h
      cases hc : net.connect_ok with
      | false =>
        rw [hc] at h
        simp at h
      | true =>
        rw [hc] at h
        simp only [Bool.not_true, Bool.false_eq_true] at h
        rw [if_neg not_false, if_neg not_false] at h
        injection h with h1 h2
        injection h2 with h3
        cases h3
        exact h1.symm

lemma setup_ssl_ok {o : SSLOracle} {trh : List Event}
    (h : setup_ssl o = some (trh, Except.ok ())) :
    handshakeLoop o.hs = some (trh, Except.ok ()) := by
  unfold setup_ssl at h
  cases hn : o.ssl_new_ok with
  | false =>
    rw [hn] at h
    simp at h
  | true =>
    rw [hn] at h
    cases hf : o.set_fd_ok with
    | false =>
      rw [hf] at h
      simp at h
    | true =>
      rw [hf] at h
      simp only [Bool.not_true, Bool.false_eq_true, if_neg] at h
      cases hh : handshakeLoop o.hs with
      | none => rw [hh] at h; exact Option.noConfusion h
      | some pr =>
        obtain ⟨tr0, r0⟩ := pr
        rw [hh] at h
        cases r0 with
        | error e => simp at h
        | ok u =>
          cases u
          cases hv : o.verify_result_ok with
          | false =>
            rw [hv] at h
            simp at h
          | true =>
            rw [hv] at h
            cases hp : o.peer_cert with
            | false =>
              rw [hp] at h
              simp at h
            | true =>
              rw [hp] at h
              simp only [Bool.not_true, Bool.false_eq_true] at h
              rw [if_neg not_false, if_neg not_false] at h
              injection h with hpair
              injection hpair with h1 h2
              cases h1
              rfl

lemma go_cmd_ok {wOk : Bool} {reads : List ReadOutcome}
    {argv : List (List Char)} {trg : List Event} {outs : List Bytes}
    (h : go_cmd wOk reads argv = some (trg, Except.ok outs)) :
    ∃ trr, readLoop reads = some (trr, Except.ok outs)
      ∧ trg = Event.sslWrite cmdBytes :: trr := by
  cases wOk with
  | false => simp [go_cmd] at h
  | true =>
    cases hr : readLoop reads with
    | none => simp [go_cmd, hr] at h
    | some pr =>
      obtain ⟨trr, r0⟩ := pr
      unfold go_cmd at h
      rw [Bool.not_true, if_neg Bool.false_ne_true, hr,
        Option.map_some'] at h
      cases r0 with
      | error e => simp at h
      | ok outs0 =>
        have hinj := Option.some.inj h
        have h1 : Event.sslWrite cmdBytes :: trr = trg :=
          congrArg Prod.fst hinj
        have h2 : (Except.ok outs0 : Except CtrlError (List Bytes))
            = Except.ok outs := congrArg Prod.snd hinj
        cases Except.ok.inj h2
        exact ⟨trr, rfl, h1.symm⟩

/-- C8 (amended): every successful invocation performs its stages in the
order: read config (with possible warning), build trust context, resolve
endpoint, create socket, connect, handshake steps (at least one), the
single request write, the read/display loop, teardown — in particular the
trust context is built before the endpoint is resolved. -/
theorem c8_stage_order (w : World) (svr? : Option (List Char))
    (argv : List (List Char)) (tr : List Event) (outs : List Bytes)
    (h : go w svr? argv = some (tr, Except.ok outs)) :
    ∃ warn s a pn hsn revs,
      (warn = [] ∨ warn = [Event.warnDisabled])
      ∧ 0 < hsn
      ∧ (∀ e ∈ revs, e = Event.sslRead ∨ ∃ b, e = Event.display b)
      ∧ tr = [Event.readConfig] ++ warn ++ [Event.buildCtx]
          ++ [Event.resolveAddr s] ++ [Event.sockCreate]
          ++ [Event.sockConnect a pn]
          ++ List.replicate hsn Event.handshakeStep
          ++ [Event.sslWrite cmdBytes] ++ revs ++ [Event.teardown] := by
  unfold go at h
  cases hcfg : w.config_ok with
  | false =>
    rw [hcfg] at h
    simp at h
  | true =>
    rw [hcfg] at h
    simp only [Bool.not_true, Bool.false_eq_true, if_neg] at h
    rcases hctx : setup_ctx w.cfg w.ctxo with ⟨trc, resc⟩
    rw [hctx] at h
    cases resc with
    | error e => simp at h
    | ok ctx =>
      obtain ⟨htrc, -⟩ := setup_ctx_ok hctx
      subst htrc
      rcases hcs : contact_server svr? w.cfg w.net with ⟨trs, ress⟩
      rw [hcs] at h
      cases ress with
      | error e => simp at h
      | ok ep =>
        have htrs := contact_server_ok hcs
        subst htrs
        cases hss : setup_ssl w.sslo with
        | none => rw [hss] at h; exact Option.noConfusion h
        | some prh =>
          obtain ⟨trh, x⟩ := prh
          rw [hss] at h
          cases x with
          | error e => simp at h
          | ok u =>
            cases u
            have hloop := setup_ssl_ok hss
            rcases hsLoop_sound hloop with
              ⟨pre, o2, rest2, -, -, -, htrh, -⟩
            subst htrh
            cases hgc : go_cmd w.write_ok w.reads argv with
            | none => rw [hgc] at h; exact Option.noConfusion h
            | some prg =>
              obtain ⟨trg, xg⟩ := prg
              rw [hgc] at h
              cases xg with
              | error e => simp at h
              | ok outs0 =>
                rcases go_cmd_ok hgc with ⟨trr, hrl, htrg⟩
                subst htrg
                simp only [Option.some.injEq, Prod.mk.injEq] at h
                rcases h with ⟨rfl, -⟩
                refine ⟨(if !w.cfg.remote_control_enable
                    then [Event.warnDisabled] else []),
                  chooseSvr svr? w.cfg, ep.addr, ep.port, pre.length + 1,
                  trr, ?_, Nat.succ_pos _, readLoop_events hrl, ?_⟩
                · cases hrc : w.cfg.remote_control_enable <;> simp [hrc]
                · simp [List.append_assoc]

/-- A fully successful concrete world: key matches certificate, the
server accepts the connect, the handshake succeeds at once with a valid
verified peer certificate, and the peer closes cleanly after the request. -/
def okWorld : World :=
  ⟨cfg0, true, ctxoAllOk, ⟨true, true⟩,
    ⟨true, true, [HsOutcome.ok], true, true⟩, true,
    [ReadOutcome.zeroReturn]⟩

/-- The event trace of the successful run of `okWorld` against
`127.0.0.1(at)8953`. -/
def trace0 : List Event :=
  [Event.readConfig, Event.buildCtx,
    Event.resolveAddr "127.0.0.1@8953".data, Event.sockCreate,
    Event.sockConnect "127.0.0.1".data 8953, Event.handshakeStep,
    Event.sslWrite cmdBytes, Event.sslRead, Event.teardown]

/-- C8 (counterexample to the claim as stated): in a concrete successful
invocation, the trust context is built as the second event and the
endpoint is resolved only as the third — the endpoint is not resolved
before the trust context is built. -/
theorem c8_ctx_built_before_resolve :
    go okWorld (some "127.0.0.1@8953".data) ["STATS".data]
      = some (trace0, Except.ok [])
    ∧ trace0.take 2 = [Event.readConfig, Event.buildCtx]
    ∧ trace0[2]? = some (Event.resolveAddr "127.0.0.1@8953".data) :=
  ⟨rfl, rfl, rfl⟩

/-- C8 witness: the stage-order decomposition at the concrete successful
world. -/
theorem c8_stage_order_witness :
    ∃ warn s a pn hsn revs,
      (warn = [] ∨ warn = [Event.warnDisabled])
      ∧ 0 < hsn
      ∧ (∀ e ∈ revs, e = Event.sslRead ∨ ∃ b, e = Event.display b)
      ∧ trace0 = [Event.readConfig] ++ warn ++ [Event.buildCtx]
          ++ [Event.resolveAddr s] ++ [Event.sockCreate]
          ++ [Event.sockConnect a pn]
          ++ List.replicate hsn Event.handshakeStep
          ++ [Event.sslWrite cmdBytes] ++ revs ++ [Event.teardown] :=
  c8_stage_order okWorld (some "127.0.0.1@8953".data) ["STATS".data]
    trace0 [] rfl
